import Mathlib

/-!
# Verification of the library-catalogue component

Shallow embedding of the catalogue component of the TypeScript
library-management repository: the abstract class `LibraryItem` with its
concrete variants `Book` and `AudioBook` (`src/models/LibraryItem.ts`,
`src/models/Book.ts`, `src/models/AudioBook.ts`) and the singleton class
`LibraryCatalogue` (`src/models/Book.ts`, richer variant).

Pure methods become Lean functions; the mutable `libraryItems` array becomes
the field of a `LibraryCatalogue` structure threaded explicitly; methods that
mutate return the updated structure (and their TS return value, when any).
JS array aliasing and the singleton's static slot are modelled separately with
an explicit reference heap, since those two claims are about object identity.
-/

/-- The closed variant type of catalogue entries. The repository's concrete
subclasses of the abstract class `LibraryItem` are `Book` (extra fields
`author`, `ISBN`) and `AudioBook` (extra fields `narrator`, `length` in
minutes). Both inherit `id : number` and `title : string`. -/
inductive LibraryItem : Type
  | book (id : Int) (title : String) (author : String) (ISBN : String)
  | audioBook (id : Int) (title : String) (narrator : String) (length : Int)
  deriving Repr, DecidableEq

namespace LibraryItem

/-- `getId()` — returns the inherited `id` field. -/
def getId : LibraryItem → Int
  | book id _ _ _ => id
  | audioBook id _ _ _ => id

/-- `getTitle()` — returns the inherited `title` field. -/
def getTitle : LibraryItem → String
  | book _ title _ _ => title
  | audioBook _ title _ _ => title

/-- `this.constructor.name` — the runtime class name of the value's concrete
class, as the source is written (class `Book` resp. `AudioBook`). -/
def constructorName : LibraryItem → String
  | book _ _ _ _ => "Book"
  | audioBook _ _ _ _ => "AudioBook"

/-- `getItemType()` — the base-class implementation returns
`this.constructor.name`; neither subclass overrides it. -/
def getItemType (item : LibraryItem) : String :=
  item.constructorName

end LibraryItem

/-- JS `String.prototype.toLowerCase`: lower-case the string character by
character (modelled with `Char.toLower` over the string's character list;
structural recursion so that concrete catalogues evaluate). -/
def jsToLowerCase (s : String) : String :=
  String.mk (s.data.map Char.toLower)

/-- The `LibraryCatalogue` object state: its one mutable field, the private
`libraryItems` array. -/
structure LibraryCatalogue where
  libraryItems : List LibraryItem
  deriving Repr, DecidableEq

namespace LibraryCatalogue

/-- The private constructor: `this.libraryItems = []`. -/
def emptyCatalogue : LibraryCatalogue := ⟨[]⟩

/-- `addItem(item)` — `this.libraryItems.push(item)` appends at the end
(the `console.log` side effect is outside the state). -/
def addItem (c : LibraryCatalogue) (item : LibraryItem) : LibraryCatalogue :=
  ⟨c.libraryItems ++ [item]⟩

/-- `getItemCount()` — `this.libraryItems.length`. -/
def getItemCount (c : LibraryCatalogue) : Nat :=
  c.libraryItems.length

/-- `findItemByTitle(title)` —
`this.libraryItems.find(item => item.getTitle().toLowerCase() === title.toLowerCase())`. -/
def findItemByTitle (c : LibraryCatalogue) (title : String) : Option LibraryItem :=
  c.libraryItems.find? (fun item => jsToLowerCase item.getTitle == jsToLowerCase title)

/-- `findItemsByType(itemType)` —
`this.libraryItems.filter(item => item.getItemType() === itemType)`. -/
def findItemsByType (c : LibraryCatalogue) (itemType : String) : List LibraryItem :=
  c.libraryItems.filter (fun item => item.getItemType == itemType)

/-- `getAllItems()` — returns `[...this.libraryItems]`; in the pure embedding
the returned value is the current contents (the aliasing behaviour of the
spread copy is modelled in the heap embedding below). -/
def getAllItems (c : LibraryCatalogue) : List LibraryItem :=
  c.libraryItems

/-- `removeItem(id)` — `findIndex(item => item.getId() === id)` then, when the
index is `> -1`, `splice(index, 1)` and `return true`, else `return false`.
`List.findIdx?` models `findIndex`'s index-or-`-1` result as an `Option`;
`splice(index, 1)` removes the one element at `index` (`List.eraseIdx`). -/
def removeItem (c : LibraryCatalogue) (id : Int) : Bool × LibraryCatalogue :=
  match c.libraryItems.findIdx? (fun item => item.getId == id) with
  | some index => (true, ⟨c.libraryItems.eraseIdx index⟩)
  | none => (false, c)

/-- The record returned by `getStatistics()`: `{ total, byType }`. The plain
JS object `byType` is modelled as a key-insertion-ordered association list. -/
structure CatalogueStatistics where
  total : Nat
  byType : List (String × Nat)
  deriving Repr, DecidableEq

/-- One step of `stats.byType[type] = (stats.byType[type] || 0) + 1` on a
plain JS object: an existing key keeps its position and its count is
incremented; a missing key is appended at the end with count 1 (JS objects
preserve string-key insertion order). -/
def bumpType : List (String × Nat) → String → List (String × Nat)
  | [], ty => [(ty, 1)]
  | (k, v) :: rest, ty =>
      if k == ty then (k, v + 1) :: rest else (k, v) :: bumpType rest ty

/-- `getStatistics()` — `total` is `this.libraryItems.length`; `byType` is
built by the `forEach` loop over the items, bumping each item's
`getItemType()` key. -/
def getStatistics (c : LibraryCatalogue) : CatalogueStatistics :=
  { total := c.libraryItems.length
    byType := c.libraryItems.foldl (fun acc item => bumpType acc item.getItemType) [] }

/-- Deprecated `addBook(book)` — delegates to `addItem` (TS upcasts the
`Book` argument to `LibraryItem`). -/
def addBook (c : LibraryCatalogue) (book : LibraryItem) : LibraryCatalogue :=
  c.addItem book

/-- Deprecated `getBookCount()` — delegates to `getItemCount`. -/
def getBookCount (c : LibraryCatalogue) : Nat :=
  c.getItemCount

/-- Deprecated `findBookByTitle(title)` — delegates to `findItemByTitle`. -/
def findBookByTitle (c : LibraryCatalogue) (title : String) : Option LibraryItem :=
  c.findItemByTitle title

/-- Deprecated `getAllBooks()` — delegates to `getAllItems`. -/
def getAllBooks (c : LibraryCatalogue) : List LibraryItem :=
  c.getAllItems

end LibraryCatalogue

/-- Observation: the number of items in a sequence whose `getItemType()`
equals `ty`. -/
def typeCount (items : List LibraryItem) (ty : String) : Nat :=
  items.countP (fun item => item.getItemType == ty)

/-- Observation: reading `byType[ty]` on the JS object modelled as an
association list — `some` count when the key is present, `none` when absent. -/
def lookupType : List (String × Nat) → String → Option Nat
  | [], _ => none
  | (k, v) :: rest, ty => if k == ty then some v else lookupType rest ty

/-- Observation: the sum of all counts stored in `byType`. -/
def sumCounts : List (String × Nat) → Nat
  | [] => 0
  | (_, v) :: rest => v + sumCounts rest

/-- A catalogue call in an interleaved `addItem` / `removeItem` trace. -/
inductive CatalogueOp : Type
  | add (item : LibraryItem)
  | remove (id : Int)
  deriving Repr, DecidableEq

/-- Run a trace of calls against a catalogue, returning the final catalogue,
the number of `addItem` calls performed, and the number of `removeItem` calls
that returned `true`. -/
def runCounting : LibraryCatalogue → List CatalogueOp → LibraryCatalogue × Nat × Nat
  | c, [] => (c, 0, 0)
  | c, CatalogueOp.add item :: ops =>
      ((runCounting (c.addItem item) ops).1,
       (runCounting (c.addItem item) ops).2.1 + 1,
       (runCounting (c.addItem item) ops).2.2)
  | c, CatalogueOp.remove id :: ops =>
      ((runCounting (c.removeItem id).2 ops).1,
       (runCounting (c.removeItem id).2 ops).2.1,
       if (c.removeItem id).1 then (runCounting (c.removeItem id).2 ops).2.2 + 1
       else (runCounting (c.removeItem id).2 ops).2.2)

/-- A JS array is a mutable reference into a heap; `Heap` maps the references
allocated so far (those below `nextRef`) to their current contents. Used for
the two claims that are about object identity: the singleton accessor and the
defensive copy. -/
structure Heap where
  nextRef : Nat
  store : Nat → List LibraryItem

namespace Heap

/-- Allocate a fresh array whose contents are `l` (an `[]` literal or a
spread copy) and return its reference. -/
def alloc (h : Heap) (l : List LibraryItem) : Nat × Heap :=
  (h.nextRef, ⟨h.nextRef + 1, fun r => if r = h.nextRef then l else h.store r⟩)

/-- Overwrite the contents of the array behind `r`: any in-place mutation of
that array (push, splice, index assignment, ...) is a write of its new
contents. -/
def write (h : Heap) (r : Nat) (l : List LibraryItem) : Heap :=
  ⟨h.nextRef, fun r2 => if r2 = r then l else h.store r2⟩

end Heap

/-- `getItemCount()` read through an array reference. -/
def getItemCountAt (h : Heap) (r : Nat) : Nat :=
  (h.store r).length

/-- `getAllItems()` on the heap model: `[...this.libraryItems]` allocates a
fresh array holding the same contents as the catalogue's array `catRef` and
returns the fresh reference. -/
def getAllItemsRef (h : Heap) (catRef : Nat) : Nat × Heap :=
  h.alloc (h.store catRef)

/-- The process-wide static state for the singleton: the private static slot
`LibraryCatalogue.instance` (holding a reference to the singleton catalogue
once constructed) together with the heap its `libraryItems` array lives in.
The catalogue object's only state is that array, so a catalogue reference is
identified with the reference of its array. -/
structure ProcessState where
  instanceRef : Option Nat
  heap : Heap

/-- `getInstance()` — when `LibraryCatalogue.instance` is unset, run the
private constructor (`new LibraryCatalogue()` allocates the empty
`libraryItems` array) and store the new instance; return the stored
reference. -/
def getInstance (s : ProcessState) : Nat × ProcessState :=
  match s.instanceRef with
  | some r => (r, s)
  | none =>
      ((s.heap.alloc []).1,
       { instanceRef := some (s.heap.alloc []).1, heap := (s.heap.alloc []).2 })

/-- `addItem(item)` called through a reference `r` to a heap-resident
catalogue: push onto that catalogue's `libraryItems` array. -/
def addItemRef (s : ProcessState) (r : Nat) (item : LibraryItem) : ProcessState :=
  { s with heap := s.heap.write r (s.heap.store r ++ [item]) }

/-- `getItemCount()` called through a reference to a heap-resident
catalogue. -/
def getItemCountRef (s : ProcessState) (r : Nat) : Nat :=
  getItemCountAt s.heap r

/-- A concrete one-catalogue heap (reference 0 allocated, one book stored),
used to instantiate the defensive-copy theorem. -/
def witnessHeap : Heap :=
  ⟨1, fun _ => [LibraryItem.book 1 "A" "a" "i"]⟩

/-- First-match lemma for `findIndex`: when `x` satisfies `p` and nothing in
`pre` does, the found index is `pre.length`. -/
theorem findIdx?_append_first {α : Type} (p : α → Bool) (pre suf : List α) (x : α)
    (hx : p x = true) (hpre : ∀ y ∈ pre, p y = false) :
    (pre ++ x :: suf).findIdx? p = some pre.length := by
  induction pre with
  | nil => simp [hx]
  | cons a as ih =>
    have ha : p a = false := hpre a (List.mem_cons_self a as)
    have ih2 := ih (fun y hy => hpre y (List.mem_cons_of_mem a hy))
    simp [List.findIdx?_cons, ha, List.findIdx?_succ, ih2]

/-- `splice(index, 1)` at the index of the middle element removes exactly it. -/
theorem eraseIdx_append_middle {α : Type} (pre suf : List α) (x : α) :
    (pre ++ x :: suf).eraseIdx pre.length = pre ++ suf := by
  induction pre with
  | nil => rfl
  | cons a as ih => simpa [List.eraseIdx] using ih

/-- Unfolding of `removeItem` when `findIndex` finds an index. -/
theorem removeItem_eq_of_findIdx_some (c : LibraryCatalogue) (id : Int) (i : Nat)
    (h : c.libraryItems.findIdx? (fun item => item.getId == id) = some i) :
    c.removeItem id = (true, ⟨c.libraryItems.eraseIdx i⟩) := by
  unfold LibraryCatalogue.removeItem
  rw [h]

/-- Unfolding of `removeItem` when `findIndex` reports no match. -/
theorem removeItem_eq_of_findIdx_none (c : LibraryCatalogue) (id : Int)
    (h : c.libraryItems.findIdx? (fun item => item.getId == id) = none) :
    c.removeItem id = (false, c) := by
  unfold LibraryCatalogue.removeItem
  rw [h]

/-- C1: `removeItem(id)` deletes exactly the first item whose `getId()` equals
`id` when one exists (writing the sequence as `pre ++ x :: suf` with no match
in `pre`: the result is `pre ++ suf`, one shorter, with the remaining order
preserved) and returns `true`; when no item has that id it returns `false`
and leaves the sequence unchanged (and, being total, raises nothing). -/
theorem removeItem_spec (c : LibraryCatalogue) (id : Int) :
    (∀ pre x suf, c.libraryItems = pre ++ x :: suf → x.getId = id →
        (∀ y ∈ pre, y.getId ≠ id) →
        c.removeItem id = (true, ⟨pre ++ suf⟩) ∧
        (c.removeItem id).2.getItemCount + 1 = c.getItemCount) ∧
    ((∀ item ∈ c.libraryItems, item.getId ≠ id) →
        c.removeItem id = (false, c)) := by
  constructor
  · intro pre x suf hsplit hx hpre
    have hfind : c.libraryItems.findIdx? (fun item => item.getId == id)
        = some pre.length := by
      rw [hsplit]
      exact findIdx?_append_first _ pre suf x (by simp [hx])
        (fun y hy => by simp [hpre y hy])
    have hres := removeItem_eq_of_findIdx_some c id pre.length hfind
    rw [hsplit, eraseIdx_append_middle] at hres
    refine ⟨hres, ?_⟩
    rw [hres]
    simp [LibraryCatalogue.getItemCount, hsplit]
    omega
  · intro hnone
    have hfind : c.libraryItems.findIdx? (fun item => item.getId == id) = none := by
      rw [List.findIdx?_eq_none_iff]
      intro y hy
      simp [hnone y hy]
    exact removeItem_eq_of_findIdx_none c id hfind

/-- Witness for C1 at a concrete two-item catalogue: removing id 2 deletes the
second entry and returns true. -/
theorem removeItem_spec_witness :
    (LibraryCatalogue.mk
        [LibraryItem.book 1 "A" "a" "i", LibraryItem.book 2 "B" "b" "j"]).removeItem 2 =
      (true, ⟨[LibraryItem.book 1 "A" "a" "i"]⟩) :=
  ((removeItem_spec
      (LibraryCatalogue.mk
        [LibraryItem.book 1 "A" "a" "i", LibraryItem.book 2 "B" "b" "j"]) 2).1
    [LibraryItem.book 1 "A" "a" "i"] (LibraryItem.book 2 "B" "b" "j") []
    rfl rfl (by decide)).1

/-- C3: `findItemByTitle(title)` matches whole titles case-insensitively
(lower-cased equality, never a partial match) and returns the first matching
item in insertion order, or `undefined` (`none`) exactly when no item's title
matches case-insensitively. -/
theorem findItemByTitle_spec (c : LibraryCatalogue) (title : String) :
    (∀ item, c.findItemByTitle title = some item →
        jsToLowerCase item.getTitle = jsToLowerCase title ∧
        ∃ pre suf, c.libraryItems = pre ++ item :: suf ∧
          ∀ y ∈ pre, jsToLowerCase y.getTitle ≠ jsToLowerCase title) ∧
    (c.findItemByTitle title = none ↔
        ∀ item ∈ c.libraryItems, jsToLowerCase item.getTitle ≠ jsToLowerCase title) := by
  constructor
  · intro item h
    rw [LibraryCatalogue.findItemByTitle, List.find?_eq_some] at h
    obtain ⟨hp, pre, suf, hsplit, hpre⟩ := h
    refine ⟨by simpa using hp, pre, suf, hsplit, fun y hy => ?_⟩
    simpa using hpre y hy
  · rw [LibraryCatalogue.findItemByTitle, List.find?_eq_none]
    constructor <;> intro h item hm <;> simpa using h item hm

/-- Witness for C3: querying a lower-case variant of "The Great Gatsby" finds
the item whose stored title is mixed-case, and it is the first match. -/
theorem findItemByTitle_spec_witness :
    jsToLowerCase (LibraryItem.book 1 "The Great Gatsby" "F" "9").getTitle =
        jsToLowerCase "the great gatsby" ∧
    ∃ pre suf,
      (LibraryCatalogue.mk [LibraryItem.book 1 "The Great Gatsby" "F" "9"]).libraryItems =
          pre ++ LibraryItem.book 1 "The Great Gatsby" "F" "9" :: suf ∧
        ∀ y ∈ pre, jsToLowerCase y.getTitle ≠ jsToLowerCase "the great gatsby" :=
  (findItemByTitle_spec
      (LibraryCatalogue.mk [LibraryItem.book 1 "The Great Gatsby" "F" "9"])
      "the great gatsby").1
    (LibraryItem.book 1 "The Great Gatsby" "F" "9") (by decide)

/-- C6: `findItemsByType(itemType)` returns exactly the items whose
`getItemType()` equals `itemType` (case-sensitive string equality), as a
subsequence of the catalogue (insertion order preserved, with the right
multiplicity), and the empty sequence — not an error — when none match. -/
theorem findItemsByType_spec (c : LibraryCatalogue) (itemType : String) :
    List.Sublist (c.findItemsByType itemType) c.libraryItems ∧
    (∀ item ∈ c.findItemsByType itemType, item.getItemType = itemType) ∧
    (∀ item ∈ c.libraryItems, item.getItemType = itemType →
        item ∈ c.findItemsByType itemType) ∧
    (c.findItemsByType itemType).length = typeCount c.libraryItems itemType ∧
    ((∀ item ∈ c.libraryItems, item.getItemType ≠ itemType) →
        c.findItemsByType itemType = []) := by
  refine ⟨List.filter_sublist _, ?_, ?_, ?_, ?_⟩
  · intro item hm
    simpa using (List.mem_filter.mp hm).2
  · intro item hm hty
    exact List.mem_filter.mpr ⟨hm, by simp [hty]⟩
  · exact (List.countP_eq_length_filter _ _).symm
  · intro hnone
    rw [LibraryCatalogue.findItemsByType, List.filter_eq_nil_iff]
    intro item hm
    simp [hnone item hm]

/-- Witness for C6: on a catalogue holding one audio book, asking for type
"Book" matches nothing and yields the empty sequence. -/
theorem findItemsByType_spec_witness :
    LibraryItem.audioBook 3 "Dune" "n" 600 ∈
        (LibraryCatalogue.mk [LibraryItem.audioBook 3 "Dune" "n" 600]).findItemsByType
          "AudioBook" ∧
    (LibraryCatalogue.mk [LibraryItem.audioBook 3 "Dune" "n" 600]).findItemsByType "Book" =
        [] :=
  ⟨(findItemsByType_spec (LibraryCatalogue.mk [LibraryItem.audioBook 3 "Dune" "n" 600])
        "AudioBook").2.2.1 (LibraryItem.audioBook 3 "Dune" "n" 600) (by decide) rfl,
    (findItemsByType_spec (LibraryCatalogue.mk [LibraryItem.audioBook 3 "Dune" "n" 600])
        "Book").2.2.2.2 (by decide)⟩

/-- C4: `addItem(item)` appends `item` at the end for every item (duplicate
ids and titles included — no uniqueness check can fail, the statement has no
precondition on `item`): the sequence length grows by exactly one and the
existing items keep their positions. -/
theorem addItem_spec (c : LibraryCatalogue) (item : LibraryItem) :
    (c.addItem item).libraryItems = c.libraryItems ++ [item] ∧
    (c.addItem item).getItemCount = c.getItemCount + 1 ∧
    (c.addItem item).libraryItems.take c.libraryItems.length = c.libraryItems := by
  refine ⟨rfl, ?_, ?_⟩
  · simp [LibraryCatalogue.addItem, LibraryCatalogue.getItemCount]
  · simp [LibraryCatalogue.addItem]

/-- C9: `getItemType()` is a deterministic variant tag: every `Book` yields
`"Book"` and every `AudioBook` yields `"AudioBook"`, whatever the field
values are. -/
theorem getItemType_spec :
    (∀ id title author isbn,
      (LibraryItem.book id title author isbn).getItemType = "Book") ∧
    (∀ id title narrator length,
      (LibraryItem.audioBook id title narrator length).getItemType = "AudioBook") :=
  ⟨fun _ _ _ _ => rfl, fun _ _ _ _ => rfl⟩

/-- C10: each deprecated legacy method is observationally equivalent to its
replacement: `addBook` to `addItem`, `getBookCount` to `getItemCount`,
`findBookByTitle` to `findItemByTitle`, `getAllBooks` to `getAllItems`. -/
theorem legacy_methods_equiv (c : LibraryCatalogue) (b : LibraryItem) (t : String) :
    c.addBook b = c.addItem b ∧
    c.getBookCount = c.getItemCount ∧
    c.findBookByTitle t = c.findItemByTitle t ∧
    c.getAllBooks = c.getAllItems :=
  ⟨rfl, rfl, rfl, rfl⟩

/-- Reading a key after one `byType` bump: the bumped key gains one (from an
implicit 0 when absent); every other key is unchanged. -/
theorem lookupType_bumpType (acc : List (String × Nat)) (ty0 ty : String) :
    lookupType (LibraryCatalogue.bumpType acc ty0) ty =
      if ty = ty0 then some ((lookupType acc ty0).getD 0 + 1)
      else lookupType acc ty := by
  induction acc with
  | nil =>
    by_cases h : ty = ty0
    · subst h
      simp [LibraryCatalogue.bumpType, lookupType]
    · simp [LibraryCatalogue.bumpType, lookupType, h, Ne.symm h]
  | cons kv rest ih =>
    obtain ⟨k, v⟩ := kv
    by_cases hk : k = ty0
    · subst hk
      by_cases h : ty = k
      · subst h
        simp [LibraryCatalogue.bumpType, lookupType]
      · simp [LibraryCatalogue.bumpType, lookupType, h, Ne.symm h]
    · by_cases h : k = ty
      · subst h
        simp [LibraryCatalogue.bumpType, lookupType, hk]
      · simp [LibraryCatalogue.bumpType, lookupType, hk, h, ih]

/-- Each `byType` bump adds exactly one to the sum of the stored counts. -/
theorem sumCounts_bumpType (acc : List (String × Nat)) (ty0 : String) :
    sumCounts (LibraryCatalogue.bumpType acc ty0) = sumCounts acc + 1 := by
  induction acc with
  | nil => rfl
  | cons kv rest ih =>
    obtain ⟨k, v⟩ := kv
    by_cases hk : k = ty0
    · subst hk
      simp [LibraryCatalogue.bumpType, sumCounts]
      omega
    · simp [LibraryCatalogue.bumpType, sumCounts, hk, ih]
      omega

/-- The `forEach` fold in `getStatistics` records exactly the per-type counts:
a key is present iff some current item has that type, and then its value is
that type's count. -/
theorem lookupType_statsFold (items : List LibraryItem) (ty : String) :
    lookupType
        (items.foldl (fun acc item => LibraryCatalogue.bumpType acc item.getItemType) [])
        ty =
      if typeCount items ty = 0 then none else some (typeCount items ty) := by
  induction items using List.reverseRecOn with
  | nil => simp [lookupType, typeCount]
  | append_singleton xs x ih =>
    rw [List.foldl_append, List.foldl_cons, List.foldl_nil, lookupType_bumpType]
    by_cases h : ty = x.getItemType
    · rw [if_pos h, ← h]
      have hcx : typeCount (xs ++ [x]) ty = typeCount xs ty + 1 := by
        simp [typeCount, List.countP_append, List.countP_cons, h.symm]
      rw [hcx, ih]
      rcases Nat.eq_zero_or_pos (typeCount xs ty) with h0 | h0
      · simp [h0]
      · simp [Nat.pos_iff_ne_zero.mp h0]
    · rw [if_neg h]
      have hcx : typeCount (xs ++ [x]) ty = typeCount xs ty := by
        simp [typeCount, List.countP_append, List.countP_cons, Ne.symm h]
      rw [hcx]
      exact ih

/-- The `forEach` fold in `getStatistics` keeps the counts summing to the
number of items folded. -/
theorem sumCounts_statsFold (items : List LibraryItem) :
    sumCounts
        (items.foldl (fun acc item => LibraryCatalogue.bumpType acc item.getItemType)
          []) =
      items.length := by
  induction items using List.reverseRecOn with
  | nil => rfl
  | append_singleton xs x ih =>
    rw [List.foldl_append, List.foldl_cons, List.foldl_nil, sumCounts_bumpType, ih]
    simp

/-- C2: `getStatistics()` returns `total` equal to `getItemCount()`; `byType`
assigns to each type-discriminator string exactly the number of current items
whose `getItemType()` equals it, has an entry exactly for the discriminators
of items actually present (so no zero-count entries), and its counts sum to
`total` — for every reachable catalogue state. -/
theorem getStatistics_spec (c : LibraryCatalogue) :
    (c.getStatistics).total = c.getItemCount ∧
    (∀ ty, lookupType (c.getStatistics).byType ty =
        if typeCount c.libraryItems ty = 0 then none
        else some (typeCount c.libraryItems ty)) ∧
    sumCounts (c.getStatistics).byType = (c.getStatistics).total :=
  ⟨rfl, fun ty => lookupType_statsFold c.libraryItems ty,
    sumCounts_statsFold c.libraryItems⟩

/-- A successful `removeItem` call decrements the count by one; an
unsuccessful one leaves it unchanged. -/
theorem removeItem_count (c : LibraryCatalogue) (id : Int) :
    (c.removeItem id).2.getItemCount + (if (c.removeItem id).1 then 1 else 0) =
      c.getItemCount := by
  rcases hfind : c.libraryItems.findIdx? (fun item => item.getId == id) with _ | i
  · rw [removeItem_eq_of_findIdx_none c id hfind]
    simp
  · rw [removeItem_eq_of_findIdx_some c id i hfind]
    have hi : i < c.libraryItems.length := by
      obtain ⟨h, -⟩ := List.findIdx?_eq_some_iff_getElem.mp hfind
      exact h
    simp [LibraryCatalogue.getItemCount, List.length_eraseIdx_of_lt hi]
    omega

/-- Along any trace, final count plus successful removals equals initial count
plus additions. -/
theorem runCounting_count (ops : List CatalogueOp) :
    ∀ c : LibraryCatalogue,
      (runCounting c ops).1.getItemCount + (runCounting c ops).2.2 =
        c.getItemCount + (runCounting c ops).2.1 := by
  induction ops with
  | nil =>
    intro c
    simp [runCounting]
  | cons op ops ih =>
    intro c
    cases op with
    | add item =>
      have h1 := ih (c.addItem item)
      have h2 : (c.addItem item).getItemCount = c.getItemCount + 1 := by
        simp [LibraryCatalogue.addItem, LibraryCatalogue.getItemCount]
      simp only [runCounting]
      omega
    | remove id =>
      have h1 := ih (c.removeItem id).2
      have h2 := removeItem_count c id
      simp only [runCounting]
      cases hb : (c.removeItem id).1 <;> simp [hb] at h2 ⊢ <;> omega

/-- C5: starting from the empty catalogue, after any interleaved sequence of
`addItem` and `removeItem` calls, `getItemCount()` equals the number of
`addItem` calls performed minus the number of `removeItem` calls that
returned true. -/
theorem itemCount_trace_spec (ops : List CatalogueOp) :
    ((runCounting LibraryCatalogue.emptyCatalogue ops).1.getItemCount : Int) =
      ((runCounting LibraryCatalogue.emptyCatalogue ops).2.1 : Int) -
        ((runCounting LibraryCatalogue.emptyCatalogue ops).2.2 : Int) := by
  have h := runCounting_count ops LibraryCatalogue.emptyCatalogue
  have h0 : LibraryCatalogue.emptyCatalogue.getItemCount = 0 := rfl
  omega

/-- C7: `getInstance()` constructs the catalogue on its first call; a second
call returns the identical reference and leaves the process state unchanged,
so no distinct second instance ever becomes visible, and a mutation
(`addItem`) made through the reference returned by one call is visible
(through `getItemCount`) via the reference returned by the other call. -/
theorem getInstance_spec (s : ProcessState) :
    (getInstance (getInstance s).2).1 = (getInstance s).1 ∧
    (getInstance (getInstance s).2).2 = (getInstance s).2 ∧
    ∀ item,
      getItemCountRef
          (addItemRef (getInstance (getInstance s).2).2 (getInstance s).1 item)
          (getInstance (getInstance s).2).1 =
        getItemCountRef (getInstance s).2 (getInstance s).1 + 1 := by
  rcases hs : s.instanceRef with _ | r <;>
    simp [getInstance, hs, Heap.alloc, Heap.write, addItemRef, getItemCountRef,
      getItemCountAt]

/-- C8: `getAllItems()` hands out a fresh copy: the copy holds the catalogue's
contents, and overwriting the returned array with arbitrary contents `l`
leaves the catalogue's own array — hence subsequent `getItemCount()` and
`getAllItems()` results — unchanged. -/
theorem getAllItems_copy_spec (h : Heap) (catRef : Nat)
    (hvalid : catRef < h.nextRef) (l : List LibraryItem) :
    (getAllItemsRef h catRef).2.store (getAllItemsRef h catRef).1 = h.store catRef ∧
    ((getAllItemsRef h catRef).2.write (getAllItemsRef h catRef).1 l).store catRef =
      h.store catRef ∧
    getItemCountAt ((getAllItemsRef h catRef).2.write (getAllItemsRef h catRef).1 l)
        catRef = getItemCountAt h catRef ∧
    (getAllItemsRef
          ((getAllItemsRef h catRef).2.write (getAllItemsRef h catRef).1 l)
          catRef).2.store
        (getAllItemsRef
          ((getAllItemsRef h catRef).2.write (getAllItemsRef h catRef).1 l)
          catRef).1 =
      h.store catRef := by
  have hne : catRef ≠ h.nextRef := Nat.ne_of_lt hvalid
  simp [getAllItemsRef, Heap.alloc, Heap.write, getItemCountAt, hne]

/-- Witness for C8 at the concrete heap `witnessHeap` (catalogue array at
reference 0): after overwriting the returned copy with `[]`, the catalogue
still stores its book. -/
theorem getAllItems_copy_spec_witness :
    0 < witnessHeap.nextRef ∧
    ((getAllItemsRef witnessHeap 0).2.write (getAllItemsRef witnessHeap 0).1
          []).store 0 =
      witnessHeap.store 0 :=
  ⟨Nat.zero_lt_one, (getAllItems_copy_spec witnessHeap 0 Nat.zero_lt_one []).2.1⟩
